import Mathlib

/-!
Shallow embedding of the GestureArt drawing engine (src/canvas_engine.py).

Modelling conventions:
* A pixel color is a triple of natural numbers (one per channel); the canvas
  of a layer is a total function from (x, y) coordinates to colors.  The real
  numpy array has exactly width by height pixels; values of the function
  outside that rectangle stand for nonexistent pixels, and faithfulness means
  no engine operation may change them.
* Python floats are modelled as rationals; Python int() truncation toward
  zero is the function pyInt below.
* cv2.circle with thickness -1 is modelled as the filled Euclidean disk
  clipped to the image, cv2.rectangle as the filled axis-aligned rectangle
  (inclusive corners), cv2.ellipse as the filled rotated ellipse expressed
  through rational cross and dot products with the unnormalised direction
  vector.  cv2.GaussianBlur (an external library call) is modelled as a
  normalised window average; the claims below depend only on a convolution
  with nonnegative normalised weights, never on the exact Gaussian shape.
* np.random draws are modelled as an explicit oracle (structure Rand) passed
  to the operations that consume randomness.
* The timing fields (time.time based performance metrics, lines 38-40 and
  82-86 of canvas_engine.py) and the unused alpha channel array (line 24)
  are not modelled: no claim mentions them and they do not influence any
  other field.
-/

namespace GestureArt

/-- One pixel: a triple of channel intensities (uint8 values live in 0..255). -/
abbrev Color := ℕ × ℕ × ℕ

/-- A layer buffer: pixel lookup by x and y. -/
abbrev Canvas := ℕ → ℕ → Color

/-- The all-zero pixel, np.zeros_like background of the scratch overlays. -/
def blackColor : Color := (0, 0, 0)

/-- The canvas np.zeros_like produces. -/
def zeroCanvas : Canvas := fun _ _ => blackColor

/-- Python int() on a rational: truncation toward zero. -/
def pyInt (q : ℚ) : ℤ := if 0 ≤ q then q.floor else -(-q).floor

/-- Source lines 48-49: x = max(0, min(x, width - 1)) on Python ints. -/
def clampCoord (v : ℤ) (hi : ℤ) : ℕ := (max 0 (min v hi)).toNat

/-- Source lines 50-52: effective_size = int(brush_size * pressure),
raised to 1 when below 1. -/
def effectiveSize (size : ℕ) (pressure : ℚ) : ℕ :=
  let e := pyInt (size * pressure)
  if e < 1 then 1 else e.toNat

/-- Source line 7: the BrushType enumeration. -/
inductive BrushType
  | STANDARD
  | AIRBRUSH
  | CALLIGRAPHY
  | MARKER
  | PENCIL
  | WATERCOLOR
  | NEON
  | PIXEL
deriving DecidableEq

/-- A Python value stored in the brush_type attribute: either a member of the
BrushType enumeration or any other object (set_brush performs no validation,
so arbitrary values can be stored; equality with every enum member is then
false, which is all the dispatch in draw observes). -/
inductive BrushVal
  | valid : BrushType → BrushVal
  | invalid : BrushVal
deriving DecidableEq

/-- Oracle for the np.random draws consumed by the pencil and watercolor
brushes: the noise image of _draw_pencil, and the per-disk radius and
per-channel jitter samples of _draw_watercolor. -/
structure Rand where
  noise : ℕ → ℕ → Color
  radii : Fin 5 → ℚ
  jitter : Fin 5 → Fin 3 → ℚ

/-- min(255, int(c * f)): channel scaling used by the opaque brushes. -/
def scaleChannel (c : ℕ) (f : ℚ) : ℕ := min 255 (pyInt (c * f)).toNat

/-- Per-channel scaling of a color, as in the tuple comprehensions of the
source. -/
def scaleColor (c : Color) (f : ℚ) : Color :=
  (scaleChannel c.1 f, scaleChannel c.2.1 f, scaleChannel c.2.2 f)

/-- cv2.circle(img, (cx, cy), r, col, -1): fill the disk of radius r around
(cx, cy), clipped to the w by h image. -/
def fillCircle (w h : ℕ) (c : Canvas) (cx cy r : ℕ) (col : Color) : Canvas :=
  fun px py =>
    if px < w ∧ py < h ∧ ((px : ℤ) - cx) ^ 2 + ((py : ℤ) - cy) ^ 2 ≤ (r : ℤ) ^ 2
    then col else c px py

/-- One channel of cv2.addWeighted(region, 1 - a, temp, a, 0): the convex
combination rounded to the nearest integer and saturated to 0..255. -/
def blendChannel (b o : ℕ) (a : ℚ) : ℕ :=
  min 255 (max 0 (⌊(b : ℚ) * (1 - a) + (o : ℚ) * a + 1 / 2⌋)).toNat

/-- cv2.addWeighted on one pixel. -/
def blendColor (b o : Color) (a : ℚ) : Color :=
  (blendChannel b.1 o.1 a, blendChannel b.2.1 o.2.1 a, blendChannel b.2.2 o.2.2 a)

/-- The shared region-blend code of the blended brushes (e.g. source lines
103-112): inside the clipped rectangle [xmin, xmax) x [ymin, ymax), every
pixel at which the overlay is not entirely zero (mask = np.any(temp != 0))
is replaced by the addWeighted blend; every other pixel keeps its base
value. -/
def regionBlend (base temp : Canvas) (a : ℚ) (xmin xmax ymin ymax : ℕ) : Canvas :=
  fun px py =>
    if xmin ≤ px ∧ px < xmax ∧ ymin ≤ py ∧ py < ymax ∧ temp px py ≠ blackColor
    then blendColor (base px py) (temp px py) a
    else base px py

/-- The engine state (attributes set in __init__, source lines 18-40; the
timing fields and the unused alpha array are not modelled). -/
structure CanvasEngine where
  width : ℕ
  height : ℕ
  background_color : Color
  color : Color
  brush_type : BrushVal
  brush_size : ℕ
  opacity : ℚ
  flow : ℚ
  hardness : ℚ
  prev_point : Option (ℕ × ℕ)
  history : List Canvas
  redo_stack : List Canvas
  max_history_size : ℕ
  layers : List Canvas
  active_layer : ℕ

/-- Fallback pixel content for an out-of-range layer or history index. -/
def defaultCanvas : Canvas := zeroCanvas

/-- self.layers[self.active_layer]. -/
def CanvasEngine.activeCanvas (s : CanvasEngine) : Canvas :=
  s.layers.getD s.active_layer defaultCanvas

/-- self.layers[self.active_layer] = c. -/
def CanvasEngine.setActiveCanvas (s : CanvasEngine) (c : Canvas) : CanvasEngine :=
  { s with layers := s.layers.set s.active_layer c }

/-- _draw_standard_brush, source lines 88-92. -/
def drawStandardBrush (s : CanvasEngine) (canvas : Canvas) (x y size : ℕ) : Canvas :=
  let eff := s.opacity * s.flow
  fillCircle s.width s.height canvas x y size (scaleColor s.color eff)

/-- The scratch overlay built by _draw_airbrush (source lines 97-102): three
concentric disks of radius size*(i+1)/2 and color scaled by
opacity*(3-i)/3, painted in order i = 0, 1, 2 over a zero canvas. -/
def airbrushOverlay (s : CanvasEngine) (x y size : ℕ) : Canvas :=
  (List.range 3).foldl
    (fun t i =>
      let radius := size * (i + 1) / 2
      let factor : ℚ := (3 - (i : ℚ)) / 3
      fillCircle s.width s.height t x y radius (scaleColor s.color (s.opacity * factor)))
    zeroCanvas

/-- _draw_airbrush, source lines 94-112. -/
def drawAirbrush (s : CanvasEngine) (canvas : Canvas) (x y size : ℕ) : Canvas :=
  regionBlend canvas (airbrushOverlay s x y size) (s.opacity * s.flow)
    (x - size * 2) (min s.width (x + size * 2))
    (y - size * 2) (min s.height (y + size * 2))

/-- The scratch overlay of _draw_marker (source lines 129-130): one disk of
the raw brush color over a zero canvas. -/
def markerOverlay (s : CanvasEngine) (x y size : ℕ) : Canvas :=
  fillCircle s.width s.height zeroCanvas x y size s.color

/-- _draw_marker, source lines 126-140. -/
def drawMarker (s : CanvasEngine) (canvas : Canvas) (x y size : ℕ) : Canvas :=
  regionBlend canvas (markerOverlay s x y size) (s.opacity * s.flow * (7 / 10))
    (x - size) (min s.width (x + size))
    (y - size) (min s.height (y + size))

/-- cv2.subtract on uint8 images: saturating per-channel subtraction. -/
def subColor (a b : Color) : Color := (a.1 - b.1, a.2.1 - b.2.1, a.2.2 - b.2.2)

/-- The scratch overlay of _draw_pencil (source lines 145-150): a disk of the
raw brush color, darkened by the random noise image when
max_noise = int(50 * (1 - hardness)) is positive. -/
def pencilOverlay (s : CanvasEngine) (rand : Rand) (x y size : ℕ) : Canvas :=
  let temp := fillCircle s.width s.height zeroCanvas x y size s.color
  let maxNoise := pyInt (50 * (1 - s.hardness))
  if 0 < maxNoise then fun px py => subColor (temp px py) (rand.noise px py) else temp

/-- _draw_pencil, source lines 142-160. -/
def drawPencil (s : CanvasEngine) (rand : Rand) (canvas : Canvas) (x y size : ℕ) : Canvas :=
  regionBlend canvas (pencilOverlay s rand x y size) (s.opacity * s.flow)
    (x - size) (min s.width (x + size))
    (y - size) (min s.height (y + size))

/-- int(max(0, min(255, c * (0.9 + r * 0.2)))): the per-channel color jitter
of _draw_watercolor (source line 167), with r the np.random.random sample. -/
def jitterChannel (c : ℕ) (r : ℚ) : ℕ :=
  (pyInt (max 0 (min 255 ((c : ℚ) * (9 / 10 + r * (2 / 10)))))).toNat

/-- The pre-blur scratch overlay of _draw_watercolor (source lines 164-168):
five disks with randomised radius int(size * (0.5 + random)) and randomised
per-channel color jitter, painted over a zero canvas. -/
def watercolorOverlay (s : CanvasEngine) (rand : Rand) (x y size : ℕ) : Canvas :=
  (List.finRange 5).foldl
    (fun t i =>
      let radius := (pyInt ((size : ℚ) * (1 / 2 + rand.radii i))).toNat
      let colorVar : Color :=
        (jitterChannel s.color.1 (rand.jitter i 0),
         jitterChannel s.color.2.1 (rand.jitter i 1),
         jitterChannel s.color.2.2 (rand.jitter i 2))
      fillCircle s.width s.height t x y radius colorVar)
    zeroCanvas

/-- The blur kernel size of the watercolor and neon brushes (source lines
169-173): k = int((1 - hardness) * 20), forced odd, minimum 1. -/
def blurKernel (hardness : ℚ) : ℕ :=
  let k := pyInt ((1 - hardness) * 20)
  let k := if k % 2 = 0 then k + 1 else k
  (if k < 1 then 1 else k).toNat

/-- One pixel of the blurred image: the normalised sum of the k by k window
centred at the pixel (window coordinates saturate at zero on the low edge).
This models the external cv2.GaussianBlur call; the claims depend only on a
convolution with nonnegative normalised weights. -/
def blurAt (k : ℕ) (img : Canvas) (px py : ℕ) : Color :=
  let acc :=
    (List.range k).foldl
      (fun a dy =>
        (List.range k).foldl
          (fun b dx =>
            let c := img (px + dx - k / 2) (py + dy - k / 2)
            (b.1 + c.1, b.2.1 + c.2.1, b.2.2 + c.2.2))
          a)
      ((0, 0, 0) : Color)
  (acc.1 / (k * k), acc.2.1 / (k * k), acc.2.2 / (k * k))

/-- The blurred image, pixel by pixel. -/
def gaussianBlur (k : ℕ) (img : Canvas) : Canvas := fun px py => blurAt k img px py

/-- _draw_watercolor, source lines 162-185. -/
def drawWatercolor (s : CanvasEngine) (rand : Rand) (canvas : Canvas) (x y size : ℕ) : Canvas :=
  let temp := gaussianBlur (blurKernel s.hardness) (watercolorOverlay s rand x y size)
  regionBlend canvas temp (s.opacity * s.flow * (7 / 10))
    (x - size * 3) (min s.width (x + size * 3))
    (y - size * 3) (min s.height (y + size * 3))

/-- The pre-blur scratch overlay of _draw_neon (source lines 189-194): three
disks of radius size*(3-i)/3 whose color adds increasing brightness
min(255, 50*(i+1)) to each channel, painted in order i = 0, 1, 2. -/
def neonOverlay (s : CanvasEngine) (x y size : ℕ) : Canvas :=
  (List.range 3).foldl
    (fun t i =>
      let radius := size * (3 - i) / 3
      let brightness := min 255 (50 * (i + 1))
      let glowColor : Color :=
        (min 255 (s.color.1 + brightness), min 255 (s.color.2.1 + brightness),
         min 255 (s.color.2.2 + brightness))
      fillCircle s.width s.height t x y radius glowColor)
    zeroCanvas

/-- _draw_neon, source lines 187-211. -/
def drawNeon (s : CanvasEngine) (canvas : Canvas) (x y size : ℕ) : Canvas :=
  let temp := gaussianBlur (blurKernel s.hardness) (neonOverlay s x y size)
  regionBlend canvas temp (s.opacity * s.flow)
    (x - size * 3) (min s.width (x + size * 3))
    (y - size * 3) (min s.height (y + size * 3))

/-- The ellipse orientation of _draw_calligraphy (source lines 116-121), kept
as the unnormalised direction vector from the previous point: (1, 1) stands
for the default 45 degree angle. -/
def calligraphyDir (prev : Option (ℕ × ℕ)) (x y : ℕ) : ℤ × ℤ :=
  match prev with
  | some pp =>
    let dx : ℤ := (x : ℤ) - pp.1
    let dy : ℤ := (y : ℤ) - pp.2
    if dx ≠ 0 ∨ dy ≠ 0 then (dx, dy) else (1, 1)
  | none => (1, 1)

/-- Membership in the filled ellipse of half-axes a (along direction u) and b
(perpendicular), centred at (cx, cy): the rational form of the rotated
ellipse equation, multiplied through by the squared norm of u. -/
def inEllipse (cx cy a b : ℕ) (u : ℤ × ℤ) (px py : ℕ) : Bool :=
  let vx := (px : ℤ) - cx
  let vy := (py : ℤ) - cy
  decide ((b : ℤ) ^ 2 * (vx * u.1 + vy * u.2) ^ 2 + (a : ℤ) ^ 2 * (vx * u.2 - vy * u.1) ^ 2
    ≤ (a : ℤ) ^ 2 * (b : ℤ) ^ 2 * (u.1 ^ 2 + u.2 ^ 2))

/-- _draw_calligraphy, source lines 114-124: a filled ellipse with axes
(size, size / 3), oriented along the travel direction, in the color scaled
by opacity * flow. -/
def drawCalligraphy (s : CanvasEngine) (canvas : Canvas) (x y size : ℕ) : Canvas :=
  let u := calligraphyDir s.prev_point x y
  let effColor := scaleColor s.color (s.opacity * s.flow)
  fun px py =>
    if px < s.width ∧ py < s.height ∧ inEllipse x y size (size / 3) u px py = true
    then effColor else canvas px py

/-- _draw_pixel, source lines 213-219: an opaque grid-snapped square
(cv2.rectangle fills both corners inclusively). -/
def drawPixel (s : CanvasEngine) (canvas : Canvas) (x y size : ℕ) : Canvas :=
  let ps := max 1 (size / 3)
  let xg := x / ps * ps
  let yg := y / ps * ps
  let effColor := scaleColor s.color (s.opacity * s.flow)
  fun px py =>
    if px < s.width ∧ py < s.height ∧ xg ≤ px ∧ px ≤ xg + ps ∧ yg ≤ py ∧ py ≤ yg + ps
    then effColor else canvas px py

/-- The brush dispatch of draw (source lines 55-72) and _connect_points
(source lines 232-249, an identical switch): any value that is not a member
of the enumeration falls through every equality test to the standard
brush. -/
def stampDab (s : CanvasEngine) (rand : Rand) (canvas : Canvas) (x y size : ℕ) : Canvas :=
  match s.brush_type with
  | .valid .STANDARD => drawStandardBrush s canvas x y size
  | .valid .AIRBRUSH => drawAirbrush s canvas x y size
  | .valid .CALLIGRAPHY => drawCalligraphy s canvas x y size
  | .valid .MARKER => drawMarker s canvas x y size
  | .valid .PENCIL => drawPencil s rand canvas x y size
  | .valid .WATERCOLOR => drawWatercolor s rand canvas x y size
  | .valid .NEON => drawNeon s canvas x y size
  | .valid .PIXEL => drawPixel s canvas x y size
  | .invalid => drawStandardBrush s canvas x y size

/-- int((1 - t) * a + t * b) at t = i / n, on the nonnegative clamped
coordinates: floor of the rational convex combination. -/
def interpCoord (a b n i : ℕ) : ℕ := ((n - i) * a + i * b) / n

/-- _connect_points, source lines 221-249.  dist = hypot(dx, dy), so
dist < 2 is d2 < 4 on the squared distance, and int(dist / 2) is
Nat.sqrt d2 / 2 (the integer square root is the floor of the real one, and
flooring commutes with halving). -/
def connectPoints (s : CanvasEngine) (rand : Rand) (canvas : Canvas)
    (p1 p2 : ℕ × ℕ) (size : ℕ) : Canvas :=
  let d2 := (((p2.1 : ℤ) - p1.1) ^ 2 + ((p2.2 : ℤ) - p1.2) ^ 2).toNat
  if d2 < 4 then canvas
  else
    let numPoints := max 2 (Nat.sqrt d2 / 2)
    (List.range' 1 (numPoints - 1)).foldl
      (fun c i =>
        stampDab s rand c (interpCoord p1.1 p2.1 numPoints i)
          (interpCoord p1.2 p2.2 numPoints i) size)
      canvas

/-- history.pop(0) eviction after an append (source lines 295-296 and
287-288): drop the oldest entry when the length exceeds the cap. -/
def evict (l : List Canvas) (maxSize : ℕ) : List Canvas :=
  if maxSize < l.length then l.drop 1 else l

/-- _save_state, source lines 293-297: append a snapshot of the active layer,
evict the oldest entry beyond the cap, and discard the redo stack. -/
def saveState (s : CanvasEngine) : CanvasEngine :=
  { s with
    history := evict (s.history ++ [s.activeCanvas]) s.max_history_size
    redo_stack := [] }

/-- draw, source lines 42-86.  A null point resets the stroke and returns at
once (lines 44-46); otherwise the coordinates are clamped, one dab is
stamped, a continuation stroke is interpolated, and an is_drawing=False call
ends the stroke and saves a history snapshot. -/
def CanvasEngine.draw (s : CanvasEngine) (rand : Rand) (point : Option (ℤ × ℤ))
    (pressure : ℚ) (is_drawing : Bool) : CanvasEngine :=
  match point with
  | none => { s with prev_point := none }
  | some p =>
    let x := clampCoord p.1 ((s.width : ℤ) - 1)
    let y := clampCoord p.2 ((s.height : ℤ) - 1)
    let size := effectiveSize s.brush_size pressure
    let c1 := stampDab s rand s.activeCanvas x y size
    let c2 :=
      match s.prev_point, is_drawing with
      | some pp, true => connectPoints s rand c1 pp (x, y) size
      | _, _ => c1
    let s1 := s.setActiveCanvas c2
    if is_drawing then { s1 with prev_point := some (x, y) }
    else saveState { s1 with prev_point := none }

/-- set_color, source lines 251-252. -/
def CanvasEngine.set_color (s : CanvasEngine) (c : Color) : CanvasEngine :=
  { s with color := c }

/-- set_brush, source lines 254-255: a plain attribute assignment. -/
def CanvasEngine.set_brush (s : CanvasEngine) (b : BrushVal) : CanvasEngine :=
  { s with brush_type := b }

/-- set_brush_size, source lines 257-258. -/
def CanvasEngine.set_brush_size (s : CanvasEngine) (size : ℤ) : CanvasEngine :=
  { s with brush_size := (max 1 size).toNat }

/-- set_opacity, source lines 260-261. -/
def CanvasEngine.set_opacity (s : CanvasEngine) (o : ℚ) : CanvasEngine :=
  { s with opacity := max 0 (min 1 o) }

/-- set_flow, source lines 263-264. -/
def CanvasEngine.set_flow (s : CanvasEngine) (f : ℚ) : CanvasEngine :=
  { s with flow := max 0 (min 1 f) }

/-- set_hardness, source lines 266-267. -/
def CanvasEngine.set_hardness (s : CanvasEngine) (h : ℚ) : CanvasEngine :=
  { s with hardness := max 0 (min 1 h) }

/-- numpy slice assignment canvas[:] = background: fill every real pixel. -/
def fillCanvas (w h : ℕ) (c : Canvas) (col : Color) : Canvas :=
  fun px py => if px < w ∧ py < h then col else c px py

/-- clear, source lines 269-271. -/
def CanvasEngine.clear (s : CanvasEngine) : CanvasEngine :=
  saveState (s.setActiveCanvas (fillCanvas s.width s.height s.activeCanvas s.background_color))

/-- undo, source lines 273-281: push the live buffer on the redo stack, pop
the newest history entry, restore the new top, and cap the redo stack. -/
def CanvasEngine.undo (s : CanvasEngine) : Bool × CanvasEngine :=
  if 1 < s.history.length then
    let rs := s.redo_stack ++ [s.activeCanvas]
    let h := s.history.dropLast
    let newLayer := h.getLast?.getD defaultCanvas
    let rs2 := if s.max_history_size < rs.length then rs.drop 1 else rs
    (true, { s.setActiveCanvas newLayer with history := h, redo_stack := rs2 })
  else (false, s)

/-- redo, source lines 283-291: pop the redo stack, append the live buffer to
the history (evicting beyond the cap), and restore the popped state. -/
def CanvasEngine.redo (s : CanvasEngine) : Bool × CanvasEngine :=
  match s.redo_stack.getLast? with
  | none => (false, s)
  | some state =>
    let rs := s.redo_stack.dropLast
    let h := evict (s.history ++ [s.activeCanvas]) s.max_history_size
    (true, { s.setActiveCanvas state with history := h, redo_stack := rs })

/-- __init__, source lines 18-40: one layer filled with the background color,
default black brush color, standard brush of size 15, opacity and flow 1,
hardness 0.5, history cap 20, and an initial _save_state call. -/
def CanvasEngine.init (w h : ℕ) (bg : Color) : CanvasEngine :=
  saveState
    { width := w
      height := h
      background_color := bg
      color := (0, 0, 0)
      brush_type := .valid .STANDARD
      brush_size := 15
      opacity := 1
      flow := 1
      hardness := 1 / 2
      prev_point := none
      history := []
      redo_stack := []
      max_history_size := 20
      layers := [fun _ _ => bg]
      active_layer := 0 }

/-- A fixed random oracle, for concrete evaluations. -/
def trivialRand : Rand :=
  { noise := fun _ _ => blackColor, radii := fun _ => 0, jitter := fun _ _ => 0 }

/-- The newest retained history snapshot. -/
def historyTop (s : CanvasEngine) : Canvas := s.history.getLast?.getD defaultCanvas

/-- Repeated undo. -/
def undoN : ℕ → CanvasEngine → CanvasEngine
  | 0, s => s
  | n + 1, s => undoN n s.undo.2

/-- Repeated redo (keeping only the state). -/
def redoN : ℕ → CanvasEngine → CanvasEngine
  | 0, s => s
  | n + 1, s => redoN n s.redo.2

/-- A driver for repeated snapshots: set the active buffer to each canvas in
turn and call _save_state, as a committed stroke or clear would. -/
def snapAll (s : CanvasEngine) (cs : List Canvas) : CanvasEngine :=
  cs.foldl (fun t c => saveState (t.setActiveCanvas c)) s

/-! ### Helper lemmas -/

lemma pyInt_eq_floor (q : ℚ) (h : 0 ≤ q) : pyInt q = ⌊q⌋ := by
  rw [pyInt, if_pos h, Rat.floor_def', ← Rat.floor_def]

lemma activeCanvas_set (s : CanvasEngine) (c : Canvas)
    (hL : s.active_layer < s.layers.length) :
    (s.setActiveCanvas c).activeCanvas = c := by
  simp [CanvasEngine.setActiveCanvas, CanvasEngine.activeCanvas, List.getD,
    List.getElem?_set_self, hL]

lemma redo_of_empty (t : CanvasEngine) (h : t.redo_stack = []) : t.redo = (false, t) := by
  simp [CanvasEngine.redo, h]

lemma redoN_of_empty (k : ℕ) (t : CanvasEngine) (h : t.redo_stack = []) : redoN k t = t := by
  induction k with
  | zero => rfl
  | succ n ih => rw [redoN, redo_of_empty t h]; exact ih

lemma pyInt_zero : pyInt 0 = 0 := by
  rw [pyInt_eq_floor 0 le_rfl]; exact Int.floor_zero

lemma scaleChannel_zero (f : ℚ) : scaleChannel 0 f = 0 := by
  simp [scaleChannel, pyInt_zero]

lemma scaleColor_black (f : ℚ) : scaleColor blackColor f = blackColor := by
  simp [scaleColor, blackColor, scaleChannel_zero]

lemma fillCircle_center (w h : ℕ) (c : Canvas) (x y r : ℕ) (col : Color)
    (hx : x < w) (hy : y < h) : fillCircle w h c x y r col x y = col := by
  simp only [fillCircle]
  rw [if_pos]
  exact ⟨hx, hy, by simp⟩

lemma getLast?_drop_one (l : List Canvas) (h : 1 < l.length) :
    (l.drop 1).getLast? = l.getLast? := by
  cases l with
  | nil => simp at h
  | cons a t =>
    cases t with
    | nil => simp at h
    | cons b t2 => simp [List.getLast?_cons_cons]

lemma activeCanvas_update_hr (t : CanvasEngine) (h r : List Canvas) :
    ({ t with history := h, redo_stack := r } : CanvasEngine).activeCanvas
      = t.activeCanvas := rfl

lemma saveState_activeCanvas (t : CanvasEngine) :
    (saveState t).activeCanvas = t.activeCanvas := rfl

lemma historyTop_saveState (t : CanvasEngine) (hm : 1 ≤ t.max_history_size) :
    historyTop (saveState t) = t.activeCanvas := by
  simp only [historyTop, saveState]
  unfold evict
  split
  · next hgt =>
    rw [getLast?_drop_one _ (by simp at hgt ⊢; omega)]
    simp [List.getLast?_concat]
  · simp [List.getLast?_concat]

/-! ### C6 — effective dab size (corrected: truncation, not rounding) -/

/-- Arithmetic rounding to the nearest integer (halves up). -/
def roundNearest (q : ℚ) : ℤ := (q + 1 / 2).floor

/-- Modelled from the words of the spec, for comparison with effectiveSize:
effectiveSize = max(1, round(baseSize x pressure)). -/
def effectiveSizeSpec (size : ℕ) (pressure : ℚ) : ℕ :=
  max 1 (roundNearest (size * pressure)).toNat

/-- C6 counterexample: at base size 15 and pressure 1/2 the code truncates
15 * 0.5 = 7.5 to 7, while the claimed arithmetic rounding gives 8. -/
theorem effectiveSize_differs_from_round :
    effectiveSize 15 (1 / 2) ≠ effectiveSizeSpec 15 (1 / 2) := by
  have h1 : effectiveSize 15 (1 / 2) = 7 := by
    have h0 : (0 : ℚ) ≤ (15 : ℕ) * (1 / 2) := by norm_num
    simp only [effectiveSize, pyInt_eq_floor _ h0]
    norm_num
    decide
  have h2 : effectiveSizeSpec 15 (1 / 2) = 8 := by
    have h0 : (0 : ℚ) ≤ (15 : ℕ) * (1 / 2) + 1 / 2 := by norm_num
    simp only [effectiveSizeSpec, roundNearest, Rat.floor_def', ← Rat.floor_def]
    norm_num
    decide
  omega

/-- C6 (amended): for every base size and every nonnegative pressure, the
effective dab size used by draw is max(1, floor(baseSize x pressure)) —
Python int() truncation, which on nonnegative products is the floor. -/
theorem effectiveSize_eq_max_one_floor (size : ℕ) (p : ℚ) (hp : 0 ≤ p) :
    effectiveSize size p = max 1 (⌊(size : ℚ) * p⌋).toNat := by
  have h0 : (0 : ℚ) ≤ (size : ℚ) * p := mul_nonneg (by positivity) hp
  have hf : 0 ≤ ⌊(size : ℚ) * p⌋ := Int.floor_nonneg.mpr h0
  simp only [effectiveSize, pyInt_eq_floor _ h0]
  rcases lt_or_ge ⌊(size : ℚ) * p⌋ 1 with h | h
  · rw [if_pos h]
    have hz : ⌊(size : ℚ) * p⌋ = 0 := by omega
    simp [hz]
  · rw [if_neg (not_lt.mpr h)]
    omega

/-- C6 witness: the amended law evaluated at base size 15, pressure 1/2. -/
theorem effectiveSize_eq_max_one_floor_witness :
    (0 : ℚ) ≤ 1 / 2 ∧ effectiveSize 15 (1 / 2) = max 1 (⌊((15 : ℕ) : ℚ) * (1 / 2)⌋).toNat :=
  ⟨by norm_num, effectiveSize_eq_max_one_floor 15 (1 / 2) (by norm_num)⟩

/-! ### C9 — set_brush (corrected: the value is stored unconditionally) -/

/-- C9 counterexample: storing a value that is no member of the brush
enumeration replaces the current brush type instead of leaving it
unchanged. -/
theorem set_brush_stores_invalid_value :
    ((CanvasEngine.init 2 2 (255, 255, 255)).set_brush BrushVal.invalid).brush_type
      ≠ (CanvasEngine.init 2 2 (255, 255, 255)).brush_type := by decide

/-- C9 (amended): set_brush stores the supplied value unconditionally — no
validation, warning or rejection — and a stored non-enumeration value makes
the dab dispatch fall back to the standard brush. -/
theorem set_brush_unconditional (s : CanvasEngine) (b : BrushVal) (rand : Rand)
    (canvas : Canvas) (x y size : ℕ) :
    (s.set_brush b).brush_type = b
      ∧ (s.set_brush b).history = s.history
      ∧ (s.set_brush b).layers = s.layers
      ∧ stampDab (s.set_brush BrushVal.invalid) rand canvas x y size
        = drawStandardBrush (s.set_brush BrushVal.invalid) canvas x y size :=
  ⟨rfl, rfl, rfl, rfl⟩

/-! ### C1 — end-of-stroke snapshot (code bug: the null-point end-of-stroke
call returns before _save_state, so a stroke ended by draw(None, False)
appends no snapshot at all) -/

/-- C1: evaluating the code at the failing input.  After one active dab, the
null-point end-of-stroke call resets the stroke but leaves the history at
its initial single entry, while ending the same stroke with a concrete
point appends exactly one snapshot. -/
theorem null_end_of_stroke_saves_no_snapshot :
    ((CanvasEngine.init 100 100 (255, 255, 255)).draw trivialRand
        (some (10, 10)) 1 true).prev_point = some (10, 10)
      ∧ (((CanvasEngine.init 100 100 (255, 255, 255)).draw trivialRand
        (some (10, 10)) 1 true).draw trivialRand none 1 false).prev_point = none
      ∧ (((CanvasEngine.init 100 100 (255, 255, 255)).draw trivialRand
        (some (10, 10)) 1 true).draw trivialRand none 1 false).history.length = 1
      ∧ (((CanvasEngine.init 100 100 (255, 255, 255)).draw trivialRand
        (some (10, 10)) 1 true).draw trivialRand (some (12, 12)) 1 false).history.length = 2 := by
  refine ⟨rfl, rfl, rfl, rfl⟩

/-! ### C5 — snapshot after undo discards the redo branch -/

/-- C5: after any number of undo calls, any snapshot-taking operation
(a stroke-ending draw call with a point, clear, or _save_state itself)
empties the redo stack; every subsequent redo then returns failure and
leaves the engine unchanged, however often it is repeated. -/
theorem redo_fails_after_snapshot (s : CanvasEngine) (rand : Rand) (m k : ℕ)
    (p : ℤ × ℤ) (pr : ℚ) :
    ((saveState (undoN (m + 1) s)).redo_stack = []
        ∧ redoN k (saveState (undoN (m + 1) s)) = saveState (undoN (m + 1) s)
        ∧ (saveState (undoN (m + 1) s)).redo = (false, saveState (undoN (m + 1) s)))
      ∧ ((undoN (m + 1) s).clear.redo_stack = []
        ∧ redoN k (undoN (m + 1) s).clear = (undoN (m + 1) s).clear
        ∧ (undoN (m + 1) s).clear.redo = (false, (undoN (m + 1) s).clear))
      ∧ (((undoN (m + 1) s).draw rand (some p) pr false).redo_stack = []
        ∧ redoN k ((undoN (m + 1) s).draw rand (some p) pr false)
          = (undoN (m + 1) s).draw rand (some p) pr false
        ∧ ((undoN (m + 1) s).draw rand (some p) pr false).redo
          = (false, (undoN (m + 1) s).draw rand (some p) pr false)) := by
  refine ⟨⟨rfl, redoN_of_empty k _ rfl, redo_of_empty _ rfl⟩,
    ⟨rfl, redoN_of_empty k _ rfl, redo_of_empty _ rfl⟩,
    ⟨rfl, redoN_of_empty k _ rfl, redo_of_empty _ rfl⟩⟩

/-! ### C2 — undo followed by redo restores the buffer -/

/-- C2: in any state with at least two retained history entries (and a valid
active layer index, as in every reachable state), undo succeeds, the
immediately following redo succeeds, and the active layer's buffer after the
round trip is exactly its pre-undo content — for any history depth, the cap
included. -/
theorem undo_redo_restores_buffer (s : CanvasEngine)
    (hh : 1 < s.history.length) (hm : 1 ≤ s.max_history_size)
    (hL : s.active_layer < s.layers.length) :
    s.undo.1 = true ∧ s.undo.2.redo.1 = true
      ∧ s.undo.2.redo.2.activeCanvas = s.activeCanvas := by
  have hlast : (if s.max_history_size < (s.redo_stack ++ [s.activeCanvas]).length
        then (s.redo_stack ++ [s.activeCanvas]).drop 1
        else s.redo_stack ++ [s.activeCanvas]).getLast? = some s.activeCanvas := by
    split
    · next hgt =>
      rw [getLast?_drop_one _ (by simp at hgt ⊢; omega)]
      exact List.getLast?_concat _
    · exact List.getLast?_concat _
  simp only [CanvasEngine.undo, if_pos hh]
  refine ⟨trivial, ?_, ?_⟩
  · simp only [CanvasEngine.redo, activeCanvas_update_hr]
    rw [hlast]
  · simp only [CanvasEngine.redo, activeCanvas_update_hr]
    rw [hlast]
    simp only [activeCanvas_update_hr]
    rw [activeCanvas_set]
    simp [CanvasEngine.setActiveCanvas, hL]

/-- C2 witness: the round trip evaluated on a concrete engine with two
history entries. -/
theorem undo_redo_restores_buffer_witness :
    (1 < (snapAll (CanvasEngine.init 2 2 (255, 255, 255)) [defaultCanvas]).history.length
        ∧ 1 ≤ (snapAll (CanvasEngine.init 2 2 (255, 255, 255)) [defaultCanvas]).max_history_size
        ∧ (snapAll (CanvasEngine.init 2 2 (255, 255, 255)) [defaultCanvas]).active_layer
          < (snapAll (CanvasEngine.init 2 2 (255, 255, 255)) [defaultCanvas]).layers.length)
      ∧ ((snapAll (CanvasEngine.init 2 2 (255, 255, 255)) [defaultCanvas]).undo.1 = true
        ∧ (snapAll (CanvasEngine.init 2 2 (255, 255, 255)) [defaultCanvas]).undo.2.redo.1 = true
        ∧ (snapAll (CanvasEngine.init 2 2 (255, 255, 255)) [defaultCanvas]).undo.2.redo.2.activeCanvas
          = (snapAll (CanvasEngine.init 2 2 (255, 255, 255)) [defaultCanvas]).activeCanvas) :=
  ⟨⟨by decide, by decide, by decide⟩,
    undo_redo_restores_buffer _ (by decide) (by decide) (by decide)⟩

/-! ### C3 — buffer equals the top history entry (corrected: holds after
construction, snapshot-taking operations and undo; fails mid-stroke) -/

/-- The claimed invariant: the rendered buffer equals the newest retained
history snapshot. -/
def topInv (t : CanvasEngine) : Prop := t.activeCanvas = historyTop t

/-- C3 counterexample: one active dab into a fresh 1 by 1 engine leaves the
live buffer black at (0, 0) while the top history entry is still the white
initial canvas, so the invariant fails in a reachable mid-stroke state. -/
theorem buffer_differs_from_top_mid_stroke :
    ((CanvasEngine.init 1 1 (255, 255, 255)).draw trivialRand
        (some (0, 0)) 1 true).activeCanvas 0 0
      ≠ historyTop ((CanvasEngine.init 1 1 (255, 255, 255)).draw trivialRand
        (some (0, 0)) 1 true) 0 0 := by
  have hl : ((CanvasEngine.init 1 1 (255, 255, 255)).draw trivialRand
      (some (0, 0)) 1 true).activeCanvas 0 0 = blackColor := by
    show fillCircle (CanvasEngine.init 1 1 (255, 255, 255)).width
      (CanvasEngine.init 1 1 (255, 255, 255)).height
      (CanvasEngine.init 1 1 (255, 255, 255)).activeCanvas 0 0 (effectiveSize 15 1)
      (scaleColor (CanvasEngine.init 1 1 (255, 255, 255)).color
        ((CanvasEngine.init 1 1 (255, 255, 255)).opacity
          * (CanvasEngine.init 1 1 (255, 255, 255)).flow)) 0 0 = blackColor
    rw [fillCircle_center _ _ _ _ _ _ _ (by decide) (by decide)]
    exact scaleColor_black _
  rw [hl]
  decide

/-- C3 (amended): the buffer equals the newest history snapshot after every
snapshot-taking operation (a bare _save_state, a stroke-ending draw call
with a point, clear), after every successful undo, and at construction; the
invariant does not hold in mid-stroke states (see the counterexample), nor
in general immediately after redo. -/
theorem buffer_eq_top_after_committing_ops (s : CanvasEngine) (rand : Rand)
    (p : ℤ × ℤ) (pr : ℚ) (w h : ℕ) (bg : Color)
    (hm : 1 ≤ s.max_history_size) (hL : s.active_layer < s.layers.length)
    (hh : 1 < s.history.length) :
    topInv (saveState s) ∧ topInv (s.draw rand (some p) pr false)
      ∧ topInv s.clear ∧ topInv s.undo.2 ∧ topInv (CanvasEngine.init w h bg) := by
  have hsave : ∀ t : CanvasEngine, 1 ≤ t.max_history_size → topInv (saveState t) :=
    fun t ht =>
      show (saveState t).activeCanvas = historyTop (saveState t) from
        (historyTop_saveState t ht).symm
  refine ⟨hsave s hm, ?_, hsave _ hm, ?_, hsave _ (by show (1 : ℕ) ≤ 20; decide)⟩
  · exact hsave _ hm
  · show topInv (CanvasEngine.undo s).2
    simp only [topInv, CanvasEngine.undo, if_pos hh, historyTop, activeCanvas_update_hr]
    rw [activeCanvas_set]
    simp [CanvasEngine.setActiveCanvas, hL]

/-- C3 witness for the amended statement, on a concrete engine with two
history entries. -/
theorem buffer_eq_top_witness :
    (1 ≤ (snapAll (CanvasEngine.init 2 2 (0, 0, 0)) [defaultCanvas]).max_history_size
        ∧ (snapAll (CanvasEngine.init 2 2 (0, 0, 0)) [defaultCanvas]).active_layer
          < (snapAll (CanvasEngine.init 2 2 (0, 0, 0)) [defaultCanvas]).layers.length
        ∧ 1 < (snapAll (CanvasEngine.init 2 2 (0, 0, 0)) [defaultCanvas]).history.length)
      ∧ (topInv (saveState (snapAll (CanvasEngine.init 2 2 (0, 0, 0)) [defaultCanvas]))
        ∧ topInv ((snapAll (CanvasEngine.init 2 2 (0, 0, 0)) [defaultCanvas]).draw
            trivialRand (some (0, 0)) 1 false)
        ∧ topInv (snapAll (CanvasEngine.init 2 2 (0, 0, 0)) [defaultCanvas]).clear
        ∧ topInv (snapAll (CanvasEngine.init 2 2 (0, 0, 0)) [defaultCanvas]).undo.2
        ∧ topInv (CanvasEngine.init 3 3 (255, 255, 255))) :=
  ⟨⟨by decide, by decide, by decide⟩,
    buffer_eq_top_after_committing_ops _ trivialRand (0, 0) 1 3 3 (255, 255, 255)
      (by decide) (by decide) (by decide)⟩

/-! ### C4 — bounded history with oldest-first eviction -/

lemma evict_concat (h : List Canvas) (c : Canvas) (maxS : ℕ) (hl : h.length ≤ maxS) :
    evict (h ++ [c]) maxS = (h ++ [c]).drop (h.length + 1 - maxS) := by
  unfold evict
  split
  · next hgt =>
    simp only [List.length_append, List.length_singleton] at hgt
    have he : h.length + 1 - maxS = 1 := by omega
    rw [he]
  · next hle =>
    simp only [List.length_append, List.length_singleton, not_lt] at hle
    have he : h.length + 1 - maxS = 0 := by omega
    rw [he, List.drop_zero]

lemma evict_length_le (l : List Canvas) (maxS : ℕ) (hl : l.length ≤ maxS + 1) :
    (evict l maxS).length ≤ maxS := by
  unfold evict
  split
  · next hgt => simp only [List.length_drop]; omega
  · next hle => omega

lemma snapAll_history (cs : List Canvas) : ∀ s : CanvasEngine,
    1 ≤ s.max_history_size → s.history.length ≤ s.max_history_size →
    s.active_layer < s.layers.length →
    (snapAll s cs).history
      = (s.history ++ cs).drop (s.history.length + cs.length - s.max_history_size) := by
  induction cs with
  | nil =>
    intro s hm hlen hL
    simp only [snapAll, List.foldl_nil, List.append_nil, List.length_nil, Nat.add_zero]
    rw [Nat.sub_eq_zero_of_le hlen, List.drop_zero]
  | cons c cs ih =>
    intro s hm hlen hL
    have hstep : snapAll s (c :: cs) = snapAll (saveState (s.setActiveCanvas c)) cs := rfl
    have h2hist : (saveState (s.setActiveCanvas c)).history
        = evict (s.history ++ [c]) s.max_history_size := by
      show evict ((s.setActiveCanvas c).history ++ [(s.setActiveCanvas c).activeCanvas])
        (s.setActiveCanvas c).max_history_size = _
      rw [activeCanvas_set s c hL]
      rfl
    have h2L : (saveState (s.setActiveCanvas c)).active_layer
        < (saveState (s.setActiveCanvas c)).layers.length := by
      show s.active_layer < (s.layers.set s.active_layer c).length
      simpa using hL
    have h2len : (saveState (s.setActiveCanvas c)).history.length ≤ s.max_history_size := by
      rw [h2hist]
      exact evict_length_le _ _ (by simp only [List.length_append, List.length_singleton]; omega)
    have h2max : (saveState (s.setActiveCanvas c)).max_history_size = s.max_history_size :=
      rfl
    rw [hstep, ih (saveState (s.setActiveCanvas c)) hm h2len h2L, h2max, h2hist,
      evict_concat _ _ _ hlen]
    rcases Nat.lt_or_ge s.history.length s.max_history_size with hlt | hge
    · have e1 : s.history.length + 1 - s.max_history_size = 0 := by omega
      simp only [e1, List.drop_zero, List.append_assoc, List.singleton_append,
        List.length_drop, List.length_append, List.length_singleton, List.length_cons,
        List.length_nil, Nat.sub_zero]
      congr 1
      omega
    · have hEq : s.history.length = s.max_history_size := le_antisymm hlen hge
      have e1 : s.history.length + 1 - s.max_history_size = 1 := by omega
      rw [e1, ← List.drop_append_of_le_length
        (show 1 ≤ (s.history ++ [c]).length by simp), List.drop_drop]
      simp only [List.append_assoc, List.singleton_append, List.length_drop,
        List.length_append, List.length_singleton, List.length_cons, List.length_nil]
      congr 1
      omega

/-- C4: starting from any reachable state (history within the cap) the
history after n further snapshots is exactly the last min(h + n, max) of the
full snapshot sequence — the oldest entries are evicted first, so after
max + 5 snapshots from construction exactly max remain, and those are the
states undo can reach.  Moreover every public operation keeps the history
length within the cap, and the cap of a freshly constructed engine is 20
with one retained snapshot. -/
theorem history_bounded_and_evicts_oldest (s : CanvasEngine) (cs : List Canvas)
    (w h : ℕ) (bg : Color) (rand : Rand) (pt : Option (ℤ × ℤ)) (pr : ℚ) (b : Bool)
    (hm : 1 ≤ s.max_history_size) (hlen : s.history.length ≤ s.max_history_size)
    (hL : s.active_layer < s.layers.length) :
    (snapAll s cs).history
        = (s.history ++ cs).drop (s.history.length + cs.length - s.max_history_size)
      ∧ (snapAll s cs).history.length = min (s.history.length + cs.length) s.max_history_size
      ∧ (saveState s).history.length ≤ s.max_history_size
      ∧ s.undo.2.history.length ≤ s.max_history_size
      ∧ s.redo.2.history.length ≤ s.max_history_size
      ∧ s.clear.history.length ≤ s.max_history_size
      ∧ (s.draw rand pt pr b).history.length ≤ s.max_history_size
      ∧ (CanvasEngine.init w h bg).max_history_size = 20
      ∧ (CanvasEngine.init w h bg).history.length = 1 := by
  have hmain := snapAll_history cs s hm hlen hL
  have hsavelen : ∀ t : CanvasEngine, t.history.length ≤ t.max_history_size →
      (saveState t).history.length ≤ t.max_history_size := by
    intro t hlt
    show (evict (t.history ++ [t.activeCanvas]) t.max_history_size).length ≤ _
    exact evict_length_le _ _ (by simp only [List.length_append, List.length_singleton]; omega)
  refine ⟨hmain, ?_, hsavelen s hlen, ?_, ?_, hsavelen _ hlen, ?_, rfl, rfl⟩
  · rw [hmain]
    simp only [List.length_drop, List.length_append]
    omega
  · simp only [CanvasEngine.undo]
    split
    · simp only [List.length_dropLast]
      omega
    · exact hlen
  · simp only [CanvasEngine.redo]
    cases hr : s.redo_stack.getLast? with
    | none => exact hlen
    | some c =>
      show (evict (s.history ++ [s.activeCanvas]) s.max_history_size).length ≤ _
      exact evict_length_le _ _
        (by simp only [List.length_append, List.length_singleton]; omega)
  · cases pt with
    | none => exact hlen
    | some p =>
      cases b with
      | true => exact hlen
      | false => exact hsavelen _ hlen

/-- C4 witness: 25 snapshots on a fresh engine (cap 20, one initial
snapshot). -/
theorem history_bounded_witness :
    (1 ≤ (CanvasEngine.init 2 2 (0, 0, 0)).max_history_size
        ∧ (CanvasEngine.init 2 2 (0, 0, 0)).history.length
          ≤ (CanvasEngine.init 2 2 (0, 0, 0)).max_history_size
        ∧ (CanvasEngine.init 2 2 (0, 0, 0)).active_layer
          < (CanvasEngine.init 2 2 (0, 0, 0)).layers.length)
      ∧ (snapAll (CanvasEngine.init 2 2 (0, 0, 0)) (List.replicate 25 defaultCanvas)).history
        = ((CanvasEngine.init 2 2 (0, 0, 0)).history ++ List.replicate 25 defaultCanvas).drop
            ((CanvasEngine.init 2 2 (0, 0, 0)).history.length + (List.replicate 25 defaultCanvas).length
              - (CanvasEngine.init 2 2 (0, 0, 0)).max_history_size)
      ∧ (snapAll (CanvasEngine.init 2 2 (0, 0, 0)) (List.replicate 25 defaultCanvas)).history.length
        = min ((CanvasEngine.init 2 2 (0, 0, 0)).history.length
              + (List.replicate 25 defaultCanvas).length)
            (CanvasEngine.init 2 2 (0, 0, 0)).max_history_size :=
  ⟨⟨by decide, by decide, by decide⟩,
    (history_bounded_and_evicts_oldest (CanvasEngine.init 2 2 (0, 0, 0))
      (List.replicate 25 defaultCanvas) 2 2 (0, 0, 0) trivialRand none 1 true
      (by decide) (by decide) (by decide)).1,
    (history_bounded_and_evicts_oldest (CanvasEngine.init 2 2 (0, 0, 0))
      (List.replicate 25 defaultCanvas) 2 2 (0, 0, 0) trivialRand none 1 true
      (by decide) (by decide) (by decide)).2.1⟩

/-! ### C7 — all writes stay inside the buffer -/

lemma fillCircle_oob (w h : ℕ) (c : Canvas) (cx cy r : ℕ) (col : Color) (px py : ℕ)
    (ho : w ≤ px ∨ h ≤ py) : fillCircle w h c cx cy r col px py = c px py := by
  simp only [fillCircle]
  rw [if_neg]
  rintro ⟨h1, h2, -⟩
  rcases ho with ho | ho <;> omega

lemma regionBlend_oob (base temp : Canvas) (a : ℚ) (xmin xmax ymin ymax px py w h : ℕ)
    (hx : xmax ≤ w) (hy : ymax ≤ h) (ho : w ≤ px ∨ h ≤ py) :
    regionBlend base temp a xmin xmax ymin ymax px py = base px py := by
  simp only [regionBlend]
  rw [if_neg]
  rintro ⟨-, h2, -, h4, -⟩
  rcases ho with ho | ho <;> omega

lemma stampDab_oob (s : CanvasEngine) (rand : Rand) (c : Canvas) (x y size px py : ℕ)
    (ho : s.width ≤ px ∨ s.height ≤ py) :
    stampDab s rand c x y size px py = c px py := by
  cases hb : s.brush_type with
  | invalid =>
    simp only [stampDab, hb, drawStandardBrush]
    exact fillCircle_oob _ _ _ _ _ _ _ _ _ ho
  | valid bt =>
    cases bt with
    | STANDARD =>
      simp only [stampDab, hb, drawStandardBrush]
      exact fillCircle_oob _ _ _ _ _ _ _ _ _ ho
    | AIRBRUSH =>
      simp only [stampDab, hb, drawAirbrush]
      exact regionBlend_oob _ _ _ _ _ _ _ _ _ _ _ (min_le_left _ _) (min_le_left _ _) ho
    | CALLIGRAPHY =>
      simp only [stampDab, hb, drawCalligraphy]
      rw [if_neg]
      rintro ⟨h1, h2, -⟩
      rcases ho with ho | ho <;> omega
    | MARKER =>
      simp only [stampDab, hb, drawMarker]
      exact regionBlend_oob _ _ _ _ _ _ _ _ _ _ _ (min_le_left _ _) (min_le_left _ _) ho
    | PENCIL =>
      simp only [stampDab, hb, drawPencil]
      exact regionBlend_oob _ _ _ _ _ _ _ _ _ _ _ (min_le_left _ _) (min_le_left _ _) ho
    | WATERCOLOR =>
      simp only [stampDab, hb, drawWatercolor]
      exact regionBlend_oob _ _ _ _ _ _ _ _ _ _ _ (min_le_left _ _) (min_le_left _ _) ho
    | NEON =>
      simp only [stampDab, hb, drawNeon]
      exact regionBlend_oob _ _ _ _ _ _ _ _ _ _ _ (min_le_left _ _) (min_le_left _ _) ho
    | PIXEL =>
      simp only [stampDab, hb, drawPixel]
      rw [if_neg]
      rintro ⟨h1, h2, -⟩
      rcases ho with ho | ho <;> omega

lemma foldl_stampDab_oob (s : CanvasEngine) (rand : Rand) (size px py : ℕ)
    (g1 g2 : ℕ → ℕ) (ho : s.width ≤ px ∨ s.height ≤ py) :
    ∀ (l : List ℕ) (c : Canvas),
      (l.foldl (fun cc i => stampDab s rand cc (g1 i) (g2 i) size) c) px py = c px py := by
  intro l
  induction l with
  | nil => intro c; rfl
  | cons i t ih =>
    intro c
    simp only [List.foldl_cons]
    rw [ih _]
    exact stampDab_oob s rand c (g1 i) (g2 i) size px py ho

lemma connectPoints_oob (s : CanvasEngine) (rand : Rand) (c : Canvas)
    (p1 p2 : ℕ × ℕ) (size px py : ℕ) (ho : s.width ≤ px ∨ s.height ≤ py) :
    connectPoints s rand c p1 p2 size px py = c px py := by
  unfold connectPoints
  split
  · rfl
  · exact foldl_stampDab_oob s rand size px py _ _ ho _ c

lemma activeCanvas_update_prev (t : CanvasEngine) (o : Option (ℕ × ℕ)) :
    ({ t with prev_point := o } : CanvasEngine).activeCanvas = t.activeCanvas := rfl

lemma draw_oob (s : CanvasEngine) (rand : Rand) (pt : Option (ℤ × ℤ)) (pr : ℚ)
    (b : Bool) (px py : ℕ) (hL : s.active_layer < s.layers.length)
    (ho : s.width ≤ px ∨ s.height ≤ py) :
    (s.draw rand pt pr b).activeCanvas px py = s.activeCanvas px py := by
  cases pt with
  | none => rfl
  | some p =>
    have hc2 : ∀ (pp : Option (ℕ × ℕ)) (bb : Bool) (c1 : Canvas) (q : ℕ × ℕ) (sz : ℕ),
        (match pp, bb with
          | some pq, true => connectPoints s rand c1 pq q sz
          | _, _ => c1) px py = c1 px py := by
      rintro (_ | pq) (_ | _) c1 q sz <;>
        first
          | rfl
          | exact connectPoints_oob s rand c1 pq q sz px py ho
    simp only [CanvasEngine.draw]
    cases b with
    | true =>
      rw [if_pos rfl]
      rw [activeCanvas_update_prev, activeCanvas_set _ _ hL, hc2]
      exact stampDab_oob s rand _ _ _ _ px py ho
    | false =>
      rw [if_neg (by simp)]
      rw [saveState_activeCanvas, activeCanvas_update_prev, activeCanvas_set _ _ hL, hc2]
      exact stampDab_oob s rand _ _ _ _ px py ho

lemma clampCoord_lt (v : ℤ) (w : ℕ) (hw : 1 ≤ w) : clampCoord v ((w : ℤ) - 1) < w := by
  simp only [clampCoord]
  omega

lemma interpCoord_lt (a b n i w : ℕ) (ha : a < w) (hb : b < w) (hn : 1 ≤ n)
    (hi : i ≤ n) : interpCoord a b n i < w := by
  have h1 : (n - i) * a + i * b ≤ n * (w - 1) := by
    calc (n - i) * a + i * b
        ≤ (n - i) * (w - 1) + i * (w - 1) :=
          Nat.add_le_add (Nat.mul_le_mul (le_refl _) (by omega))
            (Nat.mul_le_mul (le_refl _) (by omega))
      _ = n * (w - 1) := by rw [← Nat.add_mul]; congr 1; omega
  have h2 : interpCoord a b n i ≤ w - 1 := by
    simp only [interpCoord]
    calc ((n - i) * a + i * b) / n ≤ n * (w - 1) / n := Nat.div_le_div_right h1
      _ = w - 1 := Nat.mul_div_cancel_left _ (by omega)
  omega

/-- C7: draw never writes outside the real pixel rectangle — every pixel at
or beyond the width or height keeps its value through any draw call (any
point, also far outside the canvas, any brush, any stroke continuation);
the supplied coordinates are clamped into 0..width-1 before any brush call;
and every interpolated point _connect_points generates between two
clamped points again lies within 0..width-1 (the same argument applies to
the y coordinate through the same function). -/
theorem draw_writes_only_in_bounds (s : CanvasEngine) (rand : Rand)
    (pt : Option (ℤ × ℤ)) (pr : ℚ) (b : Bool) (px py : ℕ) (v : ℤ)
    (a2 b2 n i : ℕ)
    (hL : s.active_layer < s.layers.length) (ho : s.width ≤ px ∨ s.height ≤ py)
    (hw : 1 ≤ s.width) (ha : a2 < s.width) (hb : b2 < s.width)
    (hn : 1 ≤ n) (hi : i ≤ n) :
    (s.draw rand pt pr b).activeCanvas px py = s.activeCanvas px py
      ∧ clampCoord v ((s.width : ℤ) - 1) < s.width
      ∧ interpCoord a2 b2 n i < s.width :=
  ⟨draw_oob s rand pt pr b px py hL ho, clampCoord_lt v s.width hw,
    interpCoord_lt a2 b2 n i s.width ha hb hn hi⟩

/-- C7 witness: a concrete far-out-of-bounds draw point on a 4 by 4 engine. -/
theorem draw_writes_only_in_bounds_witness :
    ((CanvasEngine.init 4 4 (255, 255, 255)).active_layer
        < (CanvasEngine.init 4 4 (255, 255, 255)).layers.length
      ∧ ((CanvasEngine.init 4 4 (255, 255, 255)).width ≤ 9
          ∨ (CanvasEngine.init 4 4 (255, 255, 255)).height ≤ 0)
      ∧ 1 ≤ (CanvasEngine.init 4 4 (255, 255, 255)).width)
      ∧ (((CanvasEngine.init 4 4 (255, 255, 255)).draw trivialRand
          (some (54, -20)) 1 true).activeCanvas 9 0
        = (CanvasEngine.init 4 4 (255, 255, 255)).activeCanvas 9 0
      ∧ clampCoord (-7) (((CanvasEngine.init 4 4 (255, 255, 255)).width : ℤ) - 1)
          < (CanvasEngine.init 4 4 (255, 255, 255)).width
      ∧ interpCoord 1 3 2 1 < (CanvasEngine.init 4 4 (255, 255, 255)).width) :=
  ⟨⟨by decide, by decide, by decide⟩,
    draw_writes_only_in_bounds (CanvasEngine.init 4 4 (255, 255, 255)) trivialRand
      (some (54, -20)) 1 true 9 0 (-7) 1 3 2 1
      (by decide) (by decide) (by decide) (by decide) (by decide) (by decide) (by decide)⟩

/-! ### Shared facts about all-zero overlays -/

/-- Every pixel of the canvas is the all-zero color. -/
def pointwiseBlack (c : Canvas) : Prop := ∀ px py, c px py = blackColor

lemma zeroCanvas_pointwiseBlack : pointwiseBlack zeroCanvas := fun _ _ => rfl

lemma fillCircle_pointwiseBlack (w h : ℕ) (t : Canvas) (cx cy r : ℕ) (col : Color)
    (hcol : col = blackColor) (ht : pointwiseBlack t) :
    pointwiseBlack (fillCircle w h t cx cy r col) := by
  intro px py
  simp only [fillCircle]
  split
  · exact hcol
  · exact ht px py

lemma foldl_pointwiseBlack {α : Type} (f : Canvas → α → Canvas)
    (hf : ∀ c a, pointwiseBlack c → pointwiseBlack (f c a)) :
    ∀ (l : List α) (c : Canvas), pointwiseBlack c → pointwiseBlack (l.foldl f c) := by
  intro l
  induction l with
  | nil => intro c hc; exact hc
  | cons a t ih => intro c hc; exact ih _ (hf c a hc)

lemma foldl_congr_id {α β : Type} (f : β → α → β) (hf : ∀ b a, f b a = b) :
    ∀ (l : List α) (b : β), l.foldl f b = b := by
  intro l
  induction l with
  | nil => intro b; rfl
  | cons a t ih => intro b; rw [List.foldl_cons, hf]; exact ih b

lemma foldl_const_id {α β : Type} (l : List α) (b : β) :
    l.foldl (fun x _ => x) b = b := foldl_congr_id _ (fun _ _ => rfl) l b

lemma markerOverlay_pointwiseBlack (s : CanvasEngine) (x y size : ℕ)
    (hc : s.color = blackColor) : pointwiseBlack (markerOverlay s x y size) :=
  fillCircle_pointwiseBlack _ _ _ _ _ _ _ hc zeroCanvas_pointwiseBlack

lemma airbrushOverlay_pointwiseBlack (s : CanvasEngine) (x y size : ℕ)
    (hc : s.color = blackColor) : pointwiseBlack (airbrushOverlay s x y size) := by
  apply foldl_pointwiseBlack
  · intro c i hcc
    exact fillCircle_pointwiseBlack _ _ _ _ _ _ _ (by rw [hc]; exact scaleColor_black _) hcc
  · exact zeroCanvas_pointwiseBlack

lemma pencilOverlay_pointwiseBlack (s : CanvasEngine) (rand : Rand) (x y size : ℕ)
    (hc : s.color = blackColor) : pointwiseBlack (pencilOverlay s rand x y size) := by
  have htemp : pointwiseBlack (fillCircle s.width s.height zeroCanvas x y size s.color) :=
    fillCircle_pointwiseBlack _ _ _ _ _ _ _ hc zeroCanvas_pointwiseBlack
  intro px py
  simp only [pencilOverlay]
  split
  · show subColor (fillCircle s.width s.height zeroCanvas x y size s.color px py)
      (rand.noise px py) = blackColor
    rw [htemp px py]
    simp [subColor, blackColor]
  · exact htemp px py

lemma jitterChannel_zero (r : ℚ) : jitterChannel 0 r = 0 := by
  have h0 : max 0 (min 255 (((0 : ℕ) : ℚ) * (9 / 10 + r * (2 / 10)))) = 0 := by
    norm_num
  simp [jitterChannel, h0, pyInt_zero]

lemma watercolorOverlay_pointwiseBlack (s : CanvasEngine) (rand : Rand) (x y size : ℕ)
    (hc : s.color = blackColor) : pointwiseBlack (watercolorOverlay s rand x y size) := by
  apply foldl_pointwiseBlack
  · intro c i hcc
    refine fillCircle_pointwiseBlack _ _ _ _ _ _ _ ?_ hcc
    rw [hc]
    simp [blackColor, jitterChannel_zero]
  · exact zeroCanvas_pointwiseBlack

lemma blurAt_of_pointwiseBlack (k : ℕ) (img : Canvas) (himg : pointwiseBlack img)
    (px py : ℕ) : blurAt k img px py = blackColor := by
  have h2 : ∀ a b : ℕ, img a b = blackColor := himg
  simp [blurAt, h2, blackColor, Prod.mk.eta, foldl_const_id]

/-! ### C8 — sparse-mask blend leaves untouched pixels bit-identical -/

lemma regionBlend_untouched (base temp : Canvas) (a : ℚ) (xmin xmax ymin ymax px py : ℕ)
    (h : temp px py = blackColor) :
    regionBlend base temp a xmin xmax ymin ymax px py = base px py := by
  simp only [regionBlend]
  rw [if_neg]
  rintro ⟨-, -, -, -, hne⟩
  exact hne h

/-- C8: for each blended dab (marker, pencil, airbrush, watercolor,
glow/neon), every pixel at which the scratch overlay is entirely zero keeps
its base value bit for bit; and at a touched pixel inside the clipped
region, the marker dab writes exactly the addWeighted convex combination of
base and overlay at the brush alpha. -/
theorem untouched_pixels_bit_identical (s : CanvasEngine) (rand : Rand)
    (base : Canvas) (x y size px py : ℕ) :
    (markerOverlay s x y size px py = blackColor →
      drawMarker s base x y size px py = base px py)
    ∧ (airbrushOverlay s x y size px py = blackColor →
      drawAirbrush s base x y size px py = base px py)
    ∧ (pencilOverlay s rand x y size px py = blackColor →
      drawPencil s rand base x y size px py = base px py)
    ∧ (gaussianBlur (blurKernel s.hardness) (watercolorOverlay s rand x y size) px py
        = blackColor →
      drawWatercolor s rand base x y size px py = base px py)
    ∧ (gaussianBlur (blurKernel s.hardness) (neonOverlay s x y size) px py = blackColor →
      drawNeon s base x y size px py = base px py)
    ∧ (x - size ≤ px → px < min s.width (x + size) → y - size ≤ py →
        py < min s.height (y + size) → markerOverlay s x y size px py ≠ blackColor →
      drawMarker s base x y size px py
        = blendColor (base px py) (markerOverlay s x y size px py)
            (s.opacity * s.flow * (7 / 10))) := by
  refine ⟨?_, ?_, ?_, ?_, ?_, ?_⟩
  · intro h
    exact regionBlend_untouched _ _ _ _ _ _ _ _ _ h
  · intro h
    exact regionBlend_untouched _ _ _ _ _ _ _ _ _ h
  · intro h
    exact regionBlend_untouched _ _ _ _ _ _ _ _ _ h
  · intro h
    exact regionBlend_untouched _ _ _ _ _ _ _ _ _ h
  · intro h
    exact regionBlend_untouched _ _ _ _ _ _ _ _ _ h
  · intro h1 h2 h3 h4 h5
    simp only [drawMarker, regionBlend]
    rw [if_pos ⟨h1, h2, h3, h4, h5⟩]

/-- A fixed engine for concrete evaluations: fresh 4 by 4 canvas with
hardness 1 (blur kernel 1). -/
def engineB : CanvasEngine := { CanvasEngine.init 4 4 (255, 255, 255) with hardness := 1 }

/-- A fixed engine for concrete evaluations: fresh 4 by 4 canvas with a
non-black brush color. -/
def engineC : CanvasEngine :=
  { CanvasEngine.init 4 4 (255, 255, 255) with color := (10, 20, 30) }

/-- An all-white base canvas for concrete evaluations. -/
def whiteCanvas : Canvas := fun _ _ => (255, 255, 255)

/-- C8 witness: each untouched-pixel law evaluated at the concrete pixel
(3, 3) away from a size-1 dab at (1, 1), and the touched-pixel blend law at
the dab centre. -/
theorem untouched_pixels_bit_identical_witness :
    (markerOverlay engineB 1 1 1 3 3 = blackColor
      ∧ drawMarker engineB whiteCanvas 1 1 1 3 3 = whiteCanvas 3 3)
    ∧ (drawAirbrush engineB whiteCanvas 1 1 1 3 3 = whiteCanvas 3 3)
    ∧ (drawPencil engineB trivialRand whiteCanvas 1 1 1 3 3 = whiteCanvas 3 3)
    ∧ (drawWatercolor engineB trivialRand whiteCanvas 1 1 1 3 3 = whiteCanvas 3 3)
    ∧ (drawNeon engineB whiteCanvas 1 1 1 3 3 = whiteCanvas 3 3)
    ∧ (drawMarker engineC whiteCanvas 1 1 1 1 1
        = blendColor (whiteCanvas 1 1) (markerOverlay engineC 1 1 1 1 1)
            (engineC.opacity * engineC.flow * (7 / 10))) := by
  have hk : blurKernel engineB.hardness = 1 := by
    have h0 : pyInt ((1 - engineB.hardness) * 20) = 0 := by
      rw [show (1 - engineB.hardness) * 20 = (0 : ℚ) by
        show (1 - (1 : ℚ)) * 20 = 0; norm_num]
      exact pyInt_zero
    simp [blurKernel, h0]
  have hpencil : pencilOverlay engineB trivialRand 1 1 1 3 3 = blackColor := by
    simp only [pencilOverlay, ite_apply]
    split <;> decide
  have hwater : gaussianBlur (blurKernel engineB.hardness)
      (watercolorOverlay engineB trivialRand 1 1 1) 3 3 = blackColor :=
    blurAt_of_pointwiseBlack _ _
      (watercolorOverlay_pointwiseBlack engineB trivialRand 1 1 1 rfl) 3 3
  have hneon : gaussianBlur (blurKernel engineB.hardness)
      (neonOverlay engineB 1 1 1) 3 3 = blackColor := by
    show blurAt (blurKernel engineB.hardness) (neonOverlay engineB 1 1 1) 3 3 = blackColor
    rw [hk]
    decide
  exact ⟨⟨by decide, (untouched_pixels_bit_identical engineB trivialRand
        whiteCanvas 1 1 1 3 3).1 (by decide)⟩,
    (untouched_pixels_bit_identical engineB trivialRand whiteCanvas 1 1 1 3 3).2.1
      (by decide),
    (untouched_pixels_bit_identical engineB trivialRand whiteCanvas 1 1 1 3 3).2.2.1
      hpencil,
    (untouched_pixels_bit_identical engineB trivialRand whiteCanvas 1 1 1 3 3).2.2.2.1
      hwater,
    (untouched_pixels_bit_identical engineB trivialRand whiteCanvas 1 1 1 3 3).2.2.2.2.1
      hneon,
    (untouched_pixels_bit_identical engineC trivialRand whiteCanvas 1 1 1 1 1).2.2.2.2.2
      (by decide) (by decide) (by decide) (by decide) (by decide)⟩

/-! ### C10 — an all-black color makes the blended brushes no-ops -/

lemma inEllipse_center (cx cy a b : ℕ) (u : ℤ × ℤ) :
    inEllipse cx cy a b u cx cy = true := by
  simp only [inEllipse, decide_eq_true_eq, sub_self]
  simp only [mul_zero, zero_mul, add_zero, zero_add]
  positivity

/-- C10: with the brush color exactly (0,0,0) — the engine's default — a dab
of the Marker, Pencil, Airbrush or Watercolor brush leaves every pixel of
the buffer unchanged (the all-black overlay makes the sparse mask empty),
while the Standard, Calligraphy and Pixel brushes do write the opaque black
color at the dab centre. -/
theorem black_color_blended_brushes_noop (s : CanvasEngine) (rand : Rand)
    (canvas : Canvas) (x y size px py w hgt : ℕ) (bg : Color)
    (hc : s.color = blackColor) (hx : x < s.width) (hy : y < s.height) :
    drawMarker s canvas x y size px py = canvas px py
    ∧ drawPencil s rand canvas x y size px py = canvas px py
    ∧ drawAirbrush s canvas x y size px py = canvas px py
    ∧ drawWatercolor s rand canvas x y size px py = canvas px py
    ∧ drawStandardBrush s canvas x y size x y = blackColor
    ∧ drawCalligraphy s canvas x y size x y = blackColor
    ∧ drawPixel s canvas x y size x y = blackColor
    ∧ (CanvasEngine.init w hgt bg).color = blackColor := by
  refine ⟨?_, ?_, ?_, ?_, ?_, ?_, ?_, rfl⟩
  · exact regionBlend_untouched _ _ _ _ _ _ _ _ _
      (markerOverlay_pointwiseBlack s x y size hc px py)
  · exact regionBlend_untouched _ _ _ _ _ _ _ _ _
      (pencilOverlay_pointwiseBlack s rand x y size hc px py)
  · exact regionBlend_untouched _ _ _ _ _ _ _ _ _
      (airbrushOverlay_pointwiseBlack s x y size hc px py)
  · exact regionBlend_untouched _ _ _ _ _ _ _ _ _
      (blurAt_of_pointwiseBlack _ _
        (watercolorOverlay_pointwiseBlack s rand x y size hc) px py)
  · simp only [drawStandardBrush]
    rw [fillCircle_center _ _ _ _ _ _ _ hx hy, hc]
    exact scaleColor_black _
  · simp only [drawCalligraphy]
    rw [if_pos ⟨hx, hy, inEllipse_center x y size (size / 3) _⟩, hc]
    exact scaleColor_black _
  · simp only [drawPixel]
    have hps : 1 ≤ max 1 (size / 3) := le_max_left _ _
    have h1 : x / max 1 (size / 3) * max 1 (size / 3) ≤ x := Nat.div_mul_le_self _ _
    have h2 : x / max 1 (size / 3) * max 1 (size / 3) + x % max 1 (size / 3) = x := by
      rw [Nat.mul_comm]; exact Nat.div_add_mod x _
    have h3 : x % max 1 (size / 3) < max 1 (size / 3) := Nat.mod_lt _ (by omega)
    have h4 : y / max 1 (size / 3) * max 1 (size / 3) ≤ y := Nat.div_mul_le_self _ _
    have h5 : y / max 1 (size / 3) * max 1 (size / 3) + y % max 1 (size / 3) = y := by
      rw [Nat.mul_comm]; exact Nat.div_add_mod y _
    have h6 : y % max 1 (size / 3) < max 1 (size / 3) := Nat.mod_lt _ (by omega)
    rw [if_pos ⟨hx, hy, h1, by omega, h4, by omega⟩, hc]
    exact scaleColor_black _

/-- C10 witness: the no-op and paints-black laws evaluated on a fresh engine
(whose default color is black) at a size-1 dab at (1, 1). -/
theorem black_color_blended_brushes_noop_witness :
    ((CanvasEngine.init 3 3 (255, 255, 255)).color = blackColor
      ∧ 1 < (CanvasEngine.init 3 3 (255, 255, 255)).width
      ∧ 1 < (CanvasEngine.init 3 3 (255, 255, 255)).height)
    ∧ (drawMarker (CanvasEngine.init 3 3 (255, 255, 255)) whiteCanvas 1 1 1 0 0
        = whiteCanvas 0 0
      ∧ drawPencil (CanvasEngine.init 3 3 (255, 255, 255)) trivialRand whiteCanvas 1 1 1 0 0
        = whiteCanvas 0 0
      ∧ drawAirbrush (CanvasEngine.init 3 3 (255, 255, 255)) whiteCanvas 1 1 1 0 0
        = whiteCanvas 0 0
      ∧ drawWatercolor (CanvasEngine.init 3 3 (255, 255, 255)) trivialRand whiteCanvas 1 1 1 0 0
        = whiteCanvas 0 0
      ∧ drawStandardBrush (CanvasEngine.init 3 3 (255, 255, 255)) whiteCanvas 1 1 1 1 1
        = blackColor
      ∧ drawCalligraphy (CanvasEngine.init 3 3 (255, 255, 255)) whiteCanvas 1 1 1 1 1
        = blackColor
      ∧ drawPixel (CanvasEngine.init 3 3 (255, 255, 255)) whiteCanvas 1 1 1 1 1
        = blackColor
      ∧ (CanvasEngine.init 5 7 (1, 2, 3)).color = blackColor) := by
  have T := black_color_blended_brushes_noop (CanvasEngine.init 3 3 (255, 255, 255))
    trivialRand whiteCanvas 1 1 1 0 0 5 7 (1, 2, 3) rfl (by decide) (by decide)
  exact ⟨⟨rfl, by decide, by decide⟩,
    T.1, T.2.1, T.2.2.1, T.2.2.2.1, T.2.2.2.2.1, T.2.2.2.2.2.1, T.2.2.2.2.2.2.1,
    T.2.2.2.2.2.2.2⟩

end GestureArt
